import Mathlib

/-!
Verification of the risk-and-edge evaluation core of `one_stop_shop.py`
(a Streamlit MLB betting prototype).  The shallow embedding below models:

* the configuration constants `MAX_UNIT_PCT` and `MAX_SLATE_PCT` (lines 22-23);
* the model placeholder `dummy_edge_calc` (lines 63-72), with the random draw
  `random.uniform(0.45, 0.65)` injected as an explicit argument;
* the `Run Model` loop of `main` (lines 120-133): per-row evaluation, the
  `total_risk` accumulation, the always-rendered results table and the
  slate-cap warning.

Python floats are modelled by exact rationals `ℚ`; Python's `round(x, 1)`
(round-half-to-even on the first decimal) is modelled exactly on `ℚ`.
-/

set_option maxHeartbeats 1000000

namespace OneStopShop

/-- `MAX_UNIT_PCT = 0.01` (1 % of bankroll per unit), line 22 of the source. -/
def MAX_UNIT_PCT : ℚ := 1 / 100

/-- `MAX_SLATE_PCT = 0.05` (5 % of bankroll per slate), line 23 of the source. -/
def MAX_SLATE_PCT : ℚ := 5 / 100

/-- A proposition-bet row as assembled by the UI: the columns
`player, market, line, odds` (lines 56-58 and 103-113) plus the user-entered
`stake` column (line 117).  In the source `line` is free text
(`st.text_input`), `odds` an integer in American format (`st.number_input`
with `step=1`), and `stake` a decimal number of units. -/
structure Wager where
  player : String
  market : String
  line : String
  odds : ℤ
  stake : ℚ
  deriving DecidableEq

/-- Break-even probability of American odds, the expression on line 70:
`be = 100 / (odds + 100) if odds > 0 else abs(odds) / (abs(odds) + 100)`. -/
def be (odds : ℤ) : ℚ :=
  if odds > 0 then 100 / ((odds : ℚ) + 100)
  else (odds.natAbs : ℚ) / ((odds.natAbs : ℚ) + 100)

/-- Round a rational to the nearest integer, ties to even — the rounding
used by Python's built-in `round`. -/
def roundHalfEven (x : ℚ) : ℤ :=
  if x - (⌊x⌋ : ℚ) < 1 / 2 then ⌊x⌋
  else if 1 / 2 < x - (⌊x⌋ : ℚ) then ⌊x⌋ + 1
  else if ⌊x⌋ % 2 = 0 then ⌊x⌋ else ⌊x⌋ + 1

/-- Python's `round(y, 1)`: round to one decimal place, ties to even. -/
def round1 (y : ℚ) : ℚ := (roundHalfEven (y * 10) : ℚ) / 10

/-- `dummy_edge_calc` (lines 63-72) with the model's random draw injected:
`true_p` stands for the value of `random.uniform(0.45, 0.65)` on this call.
Returns `(round(true_p * 100, 1), round(edge * 100, 1))` where
`edge = true_p - be` and `be` is the break-even probability of the row's
odds (line 70). -/
def dummy_edge_calc (true_p : ℚ) (row : Wager) : ℚ × ℚ :=
  let b := be row.odds
  let edge := true_p - b
  (round1 (true_p * 100), round1 (edge * 100))

/-- One row of the results table, line 125:
`{**r, "true_prob%": true_p, "edge%": edge}` — the five original columns of
the wager followed by the two derived columns. -/
structure ResultRow where
  player : String
  market : String
  line : String
  odds : ℤ
  stake : ℚ
  true_prob_pct : ℚ
  edge_pct : ℚ
  deriving DecidableEq

/-- The results-table row built for wager `r` on line 125, with draw `p`
injected into `dummy_edge_calc`. -/
def mkResultRow (r : Wager) (p : ℚ) : ResultRow :=
  { player := r.player, market := r.market, line := r.line, odds := r.odds
    stake := r.stake
    true_prob_pct := (dummy_edge_calc p r).1
    edge_pct := (dummy_edge_calc p r).2 }

/-- The `Run Model` loop of `main` (lines 121-126), one injected draw per row:
starting from `results = []` and `total_risk = 0.0`, each iteration appends
`{**r, "true_prob%": ..., "edge%": ...}` to `results` and adds
`r["stake"] * MAX_UNIT_PCT` to `total_risk`. -/
def runModel (rows : List (Wager × ℚ)) : List ResultRow × ℚ :=
  rows.foldl
    (fun st rp => (st.1 ++ [mkResultRow rp.1 rp.2], st.2 + rp.1.stake * MAX_UNIT_PCT))
    ([], 0)

/-- What the `Run Model` branch surfaces (lines 127-133): the results table is
always rendered (`st.dataframe(res_df)`, line 129), and the slate-cap warning
is emitted iff `total_risk > MAX_SLATE_PCT` (line 130). -/
structure RunOutput where
  shown : List ResultRow
  warning : Bool
  deriving DecidableEq

/-- Lines 120-133 as a function of the batch with injected draws: run the
loop, always show the results, then raise the advisory warning iff the
accumulated `total_risk` strictly exceeds `MAX_SLATE_PCT`. -/
def runModelUI (rows : List (Wager × ℚ)) : RunOutput :=
  let out := runModel rows
  { shown := out.1, warning := decide (out.2 > MAX_SLATE_PCT) }

/-- A concrete wager used for witnesses: only the `stake` column varies. -/
def wStake (s : ℚ) : Wager :=
  { player := "A. Pitcher", market := "K", line := "5.5", odds := -110, stake := s }

/-- A concrete wager with zero odds (the default of the odds input on
line 108 is 0). -/
def wZeroOdds : Wager :=
  { player := "A. Pitcher", market := "K", line := "5.5", odds := 0, stake := 1 }

/-- Generalised unfolding of the `Run Model` loop: starting from any
accumulated results `acc` and running total `t`. -/
lemma runModel_foldl (rows : List (Wager × ℚ)) (acc : List ResultRow) (t : ℚ) :
    rows.foldl
      (fun st rp => (st.1 ++ [mkResultRow rp.1 rp.2], st.2 + rp.1.stake * MAX_UNIT_PCT))
      (acc, t)
    = (acc ++ rows.map (fun rp => mkResultRow rp.1 rp.2),
       t + (rows.map (fun rp => rp.1.stake * MAX_UNIT_PCT)).sum) := by
  induction rows generalizing acc t with
  | nil => simp
  | cons hd tl ih => simp [ih, add_assoc]

/-- The loop produces one result row per input row, in order, and the
total risk is the sum of the per-row contributions `stake * MAX_UNIT_PCT`. -/
lemma runModel_eq (rows : List (Wager × ℚ)) :
    runModel rows
    = (rows.map (fun rp => mkResultRow rp.1 rp.2),
       (rows.map (fun rp => rp.1.stake * MAX_UNIT_PCT)).sum) := by
  simpa [runModel] using runModel_foldl rows [] 0

/-- `roundHalfEven` never rounds below an integer lower bound of its input. -/
lemma le_roundHalfEven (m : ℤ) (x : ℚ) (h : (m : ℚ) ≤ x) : m ≤ roundHalfEven x := by
  have hm : m ≤ ⌊x⌋ := Int.le_floor.mpr h
  unfold roundHalfEven
  split_ifs <;> omega

/-- `roundHalfEven` never rounds above an integer upper bound of its input. -/
lemma roundHalfEven_le (x : ℚ) (m : ℤ) (h : x ≤ (m : ℚ)) : roundHalfEven x ≤ m := by
  have hfl : ⌊x⌋ ≤ m := by
    have h1 : ⌊x⌋ ≤ ⌊(m : ℚ)⌋ := Int.floor_le_floor h
    simpa using h1
  have hx : (⌊x⌋ : ℚ) ≤ x := Int.floor_le x
  unfold roundHalfEven
  split_ifs with hc1 hc2 hc3
  · exact hfl
  · have hlt : (⌊x⌋ : ℚ) < (m : ℚ) := by linarith
    have : ⌊x⌋ < m := by exact_mod_cast hlt
    omega
  · have hhalf : (1 : ℚ) / 2 ≤ x - (⌊x⌋ : ℚ) := le_of_not_lt hc1
    have hlt : (⌊x⌋ : ℚ) < (m : ℚ) := by linarith
    have : ⌊x⌋ < m := by exact_mod_cast hlt
    omega
  · have hhalf : (1 : ℚ) / 2 ≤ x - (⌊x⌋ : ℚ) := le_of_not_lt hc1
    have hlt : (⌊x⌋ : ℚ) < (m : ℚ) := by linarith
    have : ⌊x⌋ < m := by exact_mod_cast hlt
    omega

/-- C1: for every nonzero integer American odds `o`, the break-even
probability computed on line 70 equals `100 / (o + 100)` when `o > 0` and
`|o| / (|o| + 100)` when `o < 0`. -/
theorem breakEven_odds_formula (o : ℤ) (h : o ≠ 0) :
    (0 < o → be o = 100 / ((o : ℚ) + 100)) ∧
    (o < 0 → be o = ((|o| : ℤ) : ℚ) / (((|o| : ℤ) : ℚ) + 100)) := by
  constructor
  · intro hpos
    simp [be, hpos]
  · intro hneg
    have hnp : ¬ (o > 0) := by omega
    have habs : ((|o| : ℤ) : ℚ) = (o.natAbs : ℚ) := by
      rw [Int.cast_natAbs, Int.cast_abs]
    simp [be, hnp, habs]

/-- C1 witness: the two branches of `breakEven_odds_formula` applied at
odds `150` and `-150`. -/
theorem breakEven_odds_formula_witness :
    be 150 = 100 / ((150 : ℤ) + 100 : ℚ) ∧
    be (-150) = ((|(-150 : ℤ)| : ℤ) : ℚ) / (((|(-150 : ℤ)| : ℤ) : ℚ) + 100) :=
  ⟨by simpa using (breakEven_odds_formula 150 (by norm_num)).1 (by norm_num),
   (breakEven_odds_formula (-150) (by norm_num)).2 (by norm_num)⟩

/-- C2 counterexample: at odds `0` nothing fails and no error value exists in
the code; the `else` branch of line 70 silently computes
`be = abs(0) / (abs(0) + 100) = 0` and the wager evaluates normally
(here with draw `1/2`, returning `(50.0, 50.0)`). -/
theorem odds_zero_silently_computed :
    be 0 = 0 ∧ dummy_edge_calc (1 / 2) wZeroOdds = (50, 50) := by
  constructor
  · norm_num [be]
  · norm_num [dummy_edge_calc, wZeroOdds, be, round1, roundHalfEven]

/-- C2 amended: when a wager's odds are `0`, the evaluation does not fail:
the break-even probability is silently computed as `0` through the
negative-odds branch, the wager evaluates to
`(round(p*100, 1), round(p*100, 1))`, and the rest of the batch is
unaffected (no error path exists in the code). -/
theorem odds_zero_evaluates (w : Wager) (p : ℚ) (h : w.odds = 0) :
    be w.odds = 0 ∧ dummy_edge_calc p w = (round1 (p * 100), round1 (p * 100)) := by
  have hbe : be w.odds = 0 := by
    rw [h]
    norm_num [be]
  refine ⟨hbe, ?_⟩
  simp [dummy_edge_calc, hbe]

/-- C2 amended witness: `odds_zero_evaluates` at the concrete zero-odds
wager with draw `1/2`. -/
theorem odds_zero_evaluates_witness :
    wZeroOdds.odds = 0 ∧
    (be wZeroOdds.odds = 0 ∧
      dummy_edge_calc (1 / 2) wZeroOdds = (round1 (1 / 2 * 100), round1 (1 / 2 * 100))) :=
  ⟨by norm_num [wZeroOdds], odds_zero_evaluates wZeroOdds (1 / 2) (by norm_num [wZeroOdds])⟩

/-- C3: for every wager with nonzero odds and injected draw `p`, the edge
computation returns exactly
`(round(p * 100, 1), round((p - be) * 100, 1))` where `be` is the
break-even probability of the wager's odds. -/
theorem dummy_edge_calc_spec (p : ℚ) (w : Wager) (h : w.odds ≠ 0) :
    dummy_edge_calc p w = (round1 (p * 100), round1 ((p - be w.odds) * 100)) := by
  simp [dummy_edge_calc]

/-- C3 witness: `dummy_edge_calc_spec` at odds `-110`, stake `2`, draw
`11/20`; both components evaluate. -/
theorem dummy_edge_calc_spec_witness :
    (wStake 2).odds ≠ 0 ∧
    dummy_edge_calc (11 / 20) (wStake 2)
      = (round1 (11 / 20 * 100), round1 ((11 / 20 - be (wStake 2).odds) * 100)) ∧
    dummy_edge_calc (11 / 20) (wStake 2) = (55, 26 / 10) :=
  ⟨by norm_num [wStake],
   dummy_edge_calc_spec (11 / 20) (wStake 2) (by norm_num [wStake]),
   by norm_num [dummy_edge_calc, wStake, be, round1, roundHalfEven]⟩

/-- C5: for every nonzero integer odds `o`, the break-even probability
lies strictly between `0` and `1`. -/
theorem be_mem_unit_interval (o : ℤ) (h : o ≠ 0) : 0 < be o ∧ be o < 1 := by
  by_cases hpos : o > 0
  · have h1 : (1 : ℚ) ≤ (o : ℚ) := by exact_mod_cast hpos
    have hden : (0 : ℚ) < (o : ℚ) + 100 := by linarith
    constructor
    · simp only [be, if_pos hpos]
      positivity
    · simp only [be, if_pos hpos]
      rw [div_lt_one hden]
      linarith
  · have hne : o.natAbs ≠ 0 := Int.natAbs_ne_zero.mpr h
    have h1 : (1 : ℚ) ≤ (o.natAbs : ℚ) := by
      exact_mod_cast Nat.one_le_iff_ne_zero.mpr hne
    have hden : (0 : ℚ) < (o.natAbs : ℚ) + 100 := by linarith
    constructor
    · simp only [be, if_neg hpos]
      apply div_pos (by linarith) hden
    · simp only [be, if_neg hpos]
      rw [div_lt_one hden]
      linarith

/-- C5 witness: `be_mem_unit_interval` at odds `-110`. -/
theorem be_mem_unit_interval_witness :
    (-110 : ℤ) ≠ 0 ∧ (0 < be (-110) ∧ be (-110) < 1) :=
  ⟨by norm_num, be_mem_unit_interval (-110) (by norm_num)⟩

/-- C6: the break-even probability is strictly decreasing in `o` over
positive odds and strictly increasing in `|o|` over negative odds. -/
theorem be_strict_monotone (o1 o2 : ℤ) :
    (0 < o1 → o1 < o2 → be o2 < be o1) ∧
    (o1 < 0 → o2 < 0 → |o1| < |o2| → be o1 < be o2) := by
  constructor
  · intro h1 h12
    have h2 : 0 < o2 := h1.trans h12
    have hq1 : (0 : ℚ) < (o1 : ℚ) + 100 := by
      have : (0 : ℚ) < (o1 : ℚ) := by exact_mod_cast h1
      linarith
    have hq12 : (o1 : ℚ) + 100 < (o2 : ℚ) + 100 := by
      have : (o1 : ℚ) < (o2 : ℚ) := by exact_mod_cast h12
      linarith
    simp only [be, if_pos h1, if_pos h2]
    exact div_lt_div_of_pos_left (by norm_num) hq1 hq12
  · intro h1 h2 h12
    have hnab : o1.natAbs < o2.natAbs := by
      have e1 : (o1.natAbs : ℤ) = |o1| := (Int.abs_eq_natAbs o1).symm
      have e2 : (o2.natAbs : ℤ) = |o2| := (Int.abs_eq_natAbs o2).symm
      omega
    have ha : (0 : ℚ) ≤ (o1.natAbs : ℚ) := by positivity
    have hab : (o1.natAbs : ℚ) < (o2.natAbs : ℚ) := by exact_mod_cast hnab
    have hd1 : (0 : ℚ) < (o1.natAbs : ℚ) + 100 := by linarith
    have hd2 : (0 : ℚ) < (o2.natAbs : ℚ) + 100 := by linarith
    have hnp1 : ¬ (o1 > 0) := by omega
    have hnp2 : ¬ (o2 > 0) := by omega
    simp only [be, if_neg hnp1, if_neg hnp2]
    rw [div_lt_div_iff₀ hd1 hd2]
    nlinarith

/-- C6 witness: `be_strict_monotone` applied at `100 < 200` on the positive
side and at `-100, -200` (`|−100| < |−200|`) on the negative side. -/
theorem be_strict_monotone_witness :
    ((0 : ℤ) < 100 ∧ (100 : ℤ) < 200 ∧ be 200 < be 100) ∧
    ((-100 : ℤ) < 0 ∧ (-200 : ℤ) < 0 ∧ |(-100 : ℤ)| < |(-200 : ℤ)| ∧
      be (-100) < be (-200)) :=
  ⟨⟨by norm_num, by norm_num,
      (be_strict_monotone 100 200).1 (by norm_num) (by norm_num)⟩,
   ⟨by norm_num, by norm_num, by norm_num,
      (be_strict_monotone (-100) (-200)).2 (by norm_num) (by norm_num) (by norm_num)⟩⟩

/-- C4: with `MAX_UNIT_PCT = 0.01` and `MAX_SLATE_PCT = 0.05`, stakes
`[2, 3]` give total slate risk exactly `0.05` and do not trigger the
warning, stakes `[2, 3, 1]` give `0.06` and do trigger it, and in general
the warning fires iff the sum of `stake * MAX_UNIT_PCT` over the batch
strictly exceeds `MAX_SLATE_PCT`. -/
theorem slate_cap_threshold :
    (runModel [(wStake 2, 1 / 2), (wStake 3, 1 / 2)]).2 = 5 / 100 ∧
    (runModelUI [(wStake 2, 1 / 2), (wStake 3, 1 / 2)]).warning = false ∧
    (runModel [(wStake 2, 1 / 2), (wStake 3, 1 / 2), (wStake 1, 1 / 2)]).2 = 6 / 100 ∧
    (runModelUI [(wStake 2, 1 / 2), (wStake 3, 1 / 2), (wStake 1, 1 / 2)]).warning = true ∧
    ∀ rows : List (Wager × ℚ),
      ((runModelUI rows).warning = true ↔
        MAX_SLATE_PCT < (rows.map (fun rp => rp.1.stake * MAX_UNIT_PCT)).sum) := by
  refine ⟨?_, ?_, ?_, ?_, ?_⟩
  · norm_num [runModel, wStake, MAX_UNIT_PCT]
  · norm_num [runModelUI, runModel, wStake, MAX_UNIT_PCT, MAX_SLATE_PCT]
  · norm_num [runModel, wStake, MAX_UNIT_PCT]
  · norm_num [runModelUI, runModel, wStake, MAX_UNIT_PCT, MAX_SLATE_PCT]
  · intro rows
    simp [runModelUI, runModel_eq]

/-- C7 counterexample: the `true_prob%` field of the result row is a
percentage, not a decimal in `[0, 1]`: with the draw `11/20` (inside the
documented interval `[0.45, 0.65]`) the field equals `55`, which exceeds
`1`. -/
theorem trueprob_field_not_unit_interval :
    (45 / 100 : ℚ) ≤ 11 / 20 ∧ (11 / 20 : ℚ) ≤ 65 / 100 ∧
    (dummy_edge_calc (11 / 20) (wStake 2)).1 = 55 ∧
    ¬ ((dummy_edge_calc (11 / 20) (wStake 2)).1 ≤ 1) := by
  refine ⟨by norm_num, by norm_num, ?_, ?_⟩ <;>
    norm_num [dummy_edge_calc, wStake, be, round1, roundHalfEven]

/-- C7 amended: every draw `p` of the placeholder model lies in
`[0.45, 0.65] ⊆ [0, 1]`, but the true-probability field stored in the
result row is the percentage `round(p * 100, 1)`, which lies in
`[45, 65]`, not in `[0, 1]`. -/
theorem trueprob_draw_and_field_range (w : Wager) (p : ℚ)
    (h1 : 45 / 100 ≤ p) (h2 : p ≤ 65 / 100) :
    (0 ≤ p ∧ p ≤ 1) ∧
    45 ≤ (dummy_edge_calc p w).1 ∧ (dummy_edge_calc p w).1 ≤ 65 := by
  have hy1 : ((450 : ℤ) : ℚ) ≤ p * 100 * 10 := by push_cast; linarith
  have hy2 : p * 100 * 10 ≤ ((650 : ℤ) : ℚ) := by push_cast; linarith
  have r1 : (450 : ℤ) ≤ roundHalfEven (p * 100 * 10) := le_roundHalfEven 450 _ hy1
  have r2 : roundHalfEven (p * 100 * 10) ≤ 650 := roundHalfEven_le _ 650 hy2
  have rq1 : (450 : ℚ) ≤ (roundHalfEven (p * 100 * 10) : ℚ) := by exact_mod_cast r1
  have rq2 : (roundHalfEven (p * 100 * 10) : ℚ) ≤ 650 := by exact_mod_cast r2
  have hfield : (dummy_edge_calc p w).1 = (roundHalfEven (p * 100 * 10) : ℚ) / 10 := by
    simp [dummy_edge_calc, round1]
  refine ⟨⟨by linarith, by linarith⟩, ?_, ?_⟩
  · rw [hfield]; linarith
  · rw [hfield]; linarith

/-- C7 amended witness: `trueprob_draw_and_field_range` at draw `1/2`. -/
theorem trueprob_draw_and_field_range_witness :
    ((45 / 100 : ℚ) ≤ 1 / 2 ∧ (1 / 2 : ℚ) ≤ 65 / 100) ∧
    ((0 ≤ (1 / 2 : ℚ) ∧ (1 / 2 : ℚ) ≤ 1) ∧
      45 ≤ (dummy_edge_calc (1 / 2) (wStake 2)).1 ∧
      (dummy_edge_calc (1 / 2) (wStake 2)).1 ≤ 65) :=
  ⟨by norm_num,
   trueprob_draw_and_field_range (wStake 2) (1 / 2) (by norm_num) (by norm_num)⟩

/-- C8: the slate-cap warning is advisory only: for every batch, the
results table that is rendered contains one row per wager regardless of
the total risk, and the warning flag is merely the separate comparison
`total_risk > MAX_SLATE_PCT`; it never removes results or blocks them. -/
theorem warning_is_advisory (rows : List (Wager × ℚ)) :
    (runModelUI rows).shown = rows.map (fun rp => mkResultRow rp.1 rp.2) ∧
    (runModelUI rows).shown.length = rows.length ∧
    (runModelUI rows).warning = decide (MAX_SLATE_PCT < (runModel rows).2) := by
  refine ⟨?_, ?_, ?_⟩ <;> simp [runModelUI, runModel_eq]

/-- C9: wagers are not mutated by evaluation: the results list is exactly
the input wagers mapped through `mkResultRow`, and `mkResultRow` copies
the five original fields unchanged, adding only the two derived fields
produced by `dummy_edge_calc`. -/
theorem wagers_unchanged (rows : List (Wager × ℚ)) :
    (runModel rows).1 = rows.map (fun rp => mkResultRow rp.1 rp.2) ∧
    ∀ r p, (mkResultRow r p).player = r.player ∧
      (mkResultRow r p).market = r.market ∧
      (mkResultRow r p).line = r.line ∧
      (mkResultRow r p).odds = r.odds ∧
      (mkResultRow r p).stake = r.stake ∧
      (mkResultRow r p).true_prob_pct = (dummy_edge_calc p r).1 ∧
      (mkResultRow r p).edge_pct = (dummy_edge_calc p r).2 := by
  refine ⟨by simp [runModel_eq], fun r p => ?_⟩
  simp [mkResultRow]

/-- C10: the total slate risk is the sum of `stake * MAX_UNIT_PCT` over
the batch, hence invariant under permutation of the batch, and so is the
slate-cap warning. -/
theorem total_risk_perm_invariant (l1 l2 : List (Wager × ℚ)) (h : l1.Perm l2) :
    (runModel l1).2 = (l1.map (fun rp => rp.1.stake * MAX_UNIT_PCT)).sum ∧
    (runModel l1).2 = (runModel l2).2 ∧
    (runModelUI l1).warning = (runModelUI l2).warning := by
  have hs : (l1.map (fun rp => rp.1.stake * MAX_UNIT_PCT)).sum
      = (l2.map (fun rp => rp.1.stake * MAX_UNIT_PCT)).sum :=
    (h.map (fun rp => rp.1.stake * MAX_UNIT_PCT)).sum_eq
  have e1 : (runModel l1).2 = (l1.map (fun rp => rp.1.stake * MAX_UNIT_PCT)).sum := by
    simp [runModel_eq]
  have e2 : (runModel l2).2 = (l2.map (fun rp => rp.1.stake * MAX_UNIT_PCT)).sum := by
    simp [runModel_eq]
  refine ⟨e1, by rw [e1, e2, hs], ?_⟩
  simp only [runModelUI, e1, e2, hs]

/-- C10 witness: `total_risk_perm_invariant` on the concrete two-element
batch and its transposition. -/
theorem total_risk_perm_invariant_witness :
    ([(wStake 2, (1 : ℚ) / 2), (wStake 3, 1 / 3)]).Perm
      [(wStake 3, (1 : ℚ) / 3), (wStake 2, 1 / 2)] ∧
    ((runModel [(wStake 2, (1 : ℚ) / 2), (wStake 3, 1 / 3)]).2
        = ([(wStake 2, (1 : ℚ) / 2), (wStake 3, 1 / 3)].map
            (fun rp => rp.1.stake * MAX_UNIT_PCT)).sum ∧
      (runModel [(wStake 2, (1 : ℚ) / 2), (wStake 3, 1 / 3)]).2
        = (runModel [(wStake 3, (1 : ℚ) / 3), (wStake 2, 1 / 2)]).2 ∧
      (runModelUI [(wStake 2, (1 : ℚ) / 2), (wStake 3, 1 / 3)]).warning
        = (runModelUI [(wStake 3, (1 : ℚ) / 3), (wStake 2, 1 / 2)]).warning) :=
  ⟨List.Perm.swap (wStake 3, (1 : ℚ) / 3) (wStake 2, (1 : ℚ) / 2) [],
   total_risk_perm_invariant _ _
     (List.Perm.swap (wStake 3, (1 : ℚ) / 3) (wStake 2, (1 : ℚ) / 2) [])⟩

end OneStopShop
